import Mathlib

/-! Shallow embedding of `scripts/optimize-webp.mjs`, a batch WEBP optimizer.

The script walks `<cwd>/images`, filters to `.webp` files (case-insensitive),
and for each one: reads the bytes, asks the image library for metadata,
re-encodes through a resize-then-webp pipeline, and overwrites the file
atomically (write `<path>.tmp`, rename over the original) when the image was
wider than `MAX_WIDTH` or the re-encoded buffer is strictly smaller.

Modelling choices:
  * the filesystem is an association list from path to byte list; `readFile`,
    `writeFile` and `rename` are explicit operations on it;
  * the image library (`sharp`) is an oracle in `Env`: `metadata` may fail
    (the JS `try`/`catch` around `img.metadata()`) or return an optional
    width, and `pipeline` maps the input bytes to the re-encoded output
    bytes or an encode failure;
  * `writeFile`/`rename` failures are modelled by Boolean oracles
    `writeOk`/`renameOk` so that the uncaught-error paths are expressible;
  * `async`/`await` sequencing is strictly ordered in the source, so the
    embedding is plain sequential code in the `Except` error monad; a
    `.error` result models a rejected promise reaching `main().catch`;
  * strings are manipulated through `String.data` (lists of characters) so
    that everything evaluates by `decide`.
-/

set_option autoImplicit false

namespace OptimizeWebp

abbrev Bytes := List Nat

abbrev FsPath := String

/-! Section: Filesystem model -/

/-- The on-disk state: an association list from path to file bytes. -/
abbrev FS := List (FsPath × Bytes)

/-- Reading: `fs.readFile p` gives the bytes at `p`, or `none` when no such file exists. -/
def FS.read (fs : FS) (p : FsPath) : Option Bytes :=
  (fs.find? (fun e => e.1 == p)).map (·.2)

/-- Writing: `fs.writeFile p b` creates or truncates the file at `p` with bytes `b`. -/
def FS.write (fs : FS) (p : FsPath) (b : Bytes) : FS :=
  (p, b) :: fs.filter (fun e => e.1 != p)

/-- Renaming: `fs.rename src dst` moves `src` over `dst`, replacing `dst` (POSIX
rename semantics, as used by `fs.rename` in the script). When `src` does not
exist the state is unchanged (that failure path is guarded by the `renameOk`
oracle instead). -/
def FS.rename (fs : FS) (src dst : FsPath) : FS :=
  match fs.read src with
  | none => fs
  | some b => ((fs.filter (fun e => e.1 != src)).filter (fun e => e.1 != dst)) ++ [(dst, b)]

/-! Section: String helpers (JS semantics, on `String.data`) -/

/-- JS `s.toLowerCase()`, at the ASCII level of `Char.toLower`. -/
def lowerStr (s : String) : String := ⟨s.data.map Char.toLower⟩

/-- JS `s.endsWith(suffix)`. -/
def strEndsWith (s suffix : String) : Bool := suffix.data.isSuffixOf s.data

/-- The candidate filter used both in `main` and in `optimizeWebp`:
`f.toLowerCase().endsWith(".webp")`. -/
def isWebpName (f : FsPath) : Bool := strEndsWith (lowerStr f) ".webp"

/-- JS `path.join(d, n)` for a simple name appended under a directory. -/
def pjoin (d n : String) : String := d ++ "/" ++ n

/-- JS `path.relative(root, p)` for the only shape the script uses: `p` is a
path produced by joining names under `root`. -/
def relativePath (root p : FsPath) : FsPath :=
  if (root ++ "/").data.isPrefixOf p.data then ⟨p.data.drop (root.data.length + 1)⟩ else p

/-- JS `parseInt(s, 10)`: skip leading whitespace, optional sign, then
the longest digit prefix; `none` models `NaN`. -/
def parseIntJS (s : String) : Option Int :=
  let cs := s.data.dropWhile Char.isWhitespace
  let signAndRest : Int × List Char :=
    match cs with
    | '-' :: rest => (-1, rest)
    | '+' :: rest => (1, rest)
    | _ => (1, cs)
  let digits := signAndRest.2.takeWhile Char.isDigit
  if digits.isEmpty then none
  else some (signAndRest.1 * (digits.foldl (fun a c => a * 10 + (c.toNat - 48)) (0 : Nat) : Nat))

/-! Section: Run configuration (lines 6–9 of the script) -/

/-- Defaulting: `process.env.X || dflt`; the default applies when the variable is unset
or the empty string (both falsy in JS). -/
def envOr (v : Option String) (dflt : String) : String :=
  match v with
  | none => dflt
  | some s => if s = "" then dflt else s

/-- Line 8: `MAX_WIDTH = parseInt(process.env.MAX_WIDTH || "1920", 10)`. -/
def maxWidthOf (v : Option String) : Option Int := parseIntJS (envOr v "1920")

/-- Line 9: `QUALITY = parseInt(process.env.WEBP_QUALITY || "80", 10)`. -/
def qualityOf (v : Option String) : Option Int := parseIntJS (envOr v "80")

/-- Line 7: `TARGET_DIR = path.join(ROOT, "images")`. -/
def targetDir (root : FsPath) : FsPath := root ++ "/images"

/-! Section: The image-library oracle and per-run environment -/

/-- The ambient behaviour of one run: the parsed configuration plus oracles
for the `sharp` image library and for write/rename success. -/
structure Env where
  /-- The parsed `MAX_WIDTH` configuration value. -/
  maxWidth : Int
  /-- The parsed `WEBP_QUALITY` configuration value. -/
  quality : Int
  /-- Oracle for `sharp(buf).metadata()`: either throws (`.error`) or yields an object
  whose `width` field may be absent (`.ok none`). -/
  metadata : Bytes → Except String (Option Nat)
  /-- Oracle for the chain resize-then-webp-then-toBuffer of `sharp`:
  the re-encoded buffer, or an encode failure. -/
  pipeline : Int → Int → Bytes → Except String Bytes
  /-- Whether `fs.writeFile` at this path succeeds. -/
  writeOk : FsPath → Bool
  /-- Whether `fs.rename src dst` succeeds. -/
  renameOk : FsPath → FsPath → Bool

/-- The per-file result object returned by `optimizeWebp`: `{ changed }`,
`{ changed, reason }`, or `{ changed, resized, oldBytes, newBytes, width }`. -/
structure OptResult where
  /-- The `changed` field. -/
  changed : Bool
  /-- The `reason` field, when present. -/
  reason : Option String := none
  /-- The `resized` field, when present. -/
  resized : Option Bool := none
  /-- The `oldBytes` field, when present. -/
  oldBytes : Option Nat := none
  /-- The `newBytes` field, when present. -/
  newBytes : Option Nat := none
  /-- The `width` field, when present. -/
  width : Option Nat := none
  deriving Repr, DecidableEq

/-! Section: `optimizeWebp` (lines 26–59 of the script) -/

/-- The per-file optimizer. A `.error` result is an exception propagating out
of the `async` function; `.ok` carries the result object and the filesystem
after any writes. -/
def optimizeWebp (env : Env) (fs : FS) (filePath : FsPath) :
    Except String (OptResult × FS) :=
  if !(isWebpName filePath) then
    .ok ({ changed := false }, fs)
  else
    match fs.read filePath with
    | none => .error "read_failed"
    | some buf =>
      match env.metadata buf with
      | .error _ => .ok ({ changed := false, reason := some "metadata_failed" }, fs)
      | .ok w? =>
        let width := w?.getD 0
        match env.pipeline env.maxWidth env.quality buf with
        | .error e => .error e
        | .ok outBuf =>
          let resized : Bool := decide ((width : Int) > env.maxWidth)
          let smaller : Bool := decide (outBuf.length < buf.length)
          if !resized && !smaller then
            .ok ({ changed := false, reason := some "already_optimized" }, fs)
          else
            let tmp := filePath ++ ".tmp"
            if env.writeOk tmp then
              let fs1 := fs.write tmp outBuf
              if env.renameOk tmp filePath then
                .ok ({ changed := true, resized := some resized,
                       oldBytes := some buf.length, newBytes := some outBuf.length,
                       width := some width }, fs1.rename tmp filePath)
              else .error "rename_failed"
            else .error "write_failed"

/-! Section: Directory walking (lines 15–24 of the script) -/

/-- A directory entry: a regular file with its content, or a subdirectory. -/
inductive Entry where
  /-- A regular file. -/
  | file (name : String) (content : Bytes)
  /-- A directory with its children. -/
  | dir (name : String) (children : List Entry)

mutual

/-- Walk restricted to one entry under directory `d`: the files it
contributes, with their bytes, in traversal order. -/
def Entry.walk (d : FsPath) : Entry → List (FsPath × Bytes)
  | .file n c => [(pjoin d n, c)]
  | .dir n cs => walkEntries (pjoin d n) cs

/-- JS `walk(dir)` over a list of entries: depth-first, in directory order. -/
def walkEntries (d : FsPath) : List Entry → List (FsPath × Bytes)
  | [] => []
  | e :: es => Entry.walk d e ++ walkEntries d es

end

/-- The initial on-disk state under the target directory, in walk order. -/
def walkFS (root : FsPath) (entries : List Entry) : FS :=
  walkEntries (targetDir root) entries

/-- The selection `files.filter(f => f.toLowerCase().endsWith(".webp"))` applied to the
walked file list. -/
def webpsOf (root : FsPath) (entries : List Entry) : List FsPath :=
  ((walkFS root entries).map Prod.fst).filter isWebpName

/-! Section: The run driver (lines 62–89 of the script) -/

/-- Per-file output line, `` console.log(`✅ optimized: ${rel} (${old} -> ${new} bytes)`) ``. -/
def fileLine (rel : FsPath) (o n : Nat) : String :=
  "✅ optimized: " ++ rel ++ " (" ++ toString o ++ " -> " ++ toString n ++ " bytes)"

/-- Final output line, `` console.log(`Done. changed=${changedCount}, saved=${savedBytes} bytes`) ``. -/
def doneLine (c : Nat) (s : Int) : String :=
  "Done. changed=" ++ toString c ++ ", saved=" ++ toString s ++ " bytes"

/-- The `for (const f of webps)` loop of `main`, threading the filesystem,
`changedCount`, `savedBytes` and the stdout lines so far. On an uncaught
per-file error it returns `.error` with the stdout printed so far. -/
def loop (env : Env) (root : FsPath) :
    List FsPath → FS → Nat → Int → List String →
    Except (String × List String) (List String × FS)
  | [], fs, c, s, out => .ok (out ++ [doneLine c s], fs)
  | f :: rest, fs, c, s, out =>
    match optimizeWebp env fs f with
    | .error e => .error (e, out)
    | .ok (r, fs') =>
      if r.changed then
        let o := r.oldBytes.getD 0
        let n := r.newBytes.getD 0
        loop env root rest fs' (c + 1) (s + (o : Int) - (n : Int))
          (out ++ [fileLine (relativePath root f) o n])
      else
        loop env root rest fs' c s out

/-- Driver `main()`. The target directory's contents are `some entries` when it
exists and `none` otherwise (the `exists(TARGET_DIR)` check). `.ok` carries
the stdout lines and the final filesystem (when the directory existed);
`.error` carries the escaped exception and the stdout printed before it. -/
def main (env : Env) (root : FsPath) :
    Option (List Entry) → Except (String × List String) (List String × Option FS)
  | none => .ok (["No images/ directory found at: " ++ targetDir root], none)
  | some entries =>
    match loop env root (webpsOf root entries) (walkFS root entries) 0 0 [] with
    | .error e => .error e
    | .ok (out, fs') => .ok (out, some fs')

/-- What the process leaves behind: exit code, stdout, stderr, and the final
filesystem when the run completed. -/
structure RunOut where
  /-- The process exit status. -/
  exitCode : Nat
  /-- The `console.log` lines, in order. -/
  stdout : List String
  /-- The `console.error` output of the top-level `catch`. -/
  stderr : List String
  /-- The final on-disk state under the target directory, when the run
  completed and the directory existed. -/
  fs : Option FS
  deriving Repr, DecidableEq

/-- Process wrapper `main().catch(e => { console.error(e); process.exit(1); })`. -/
def run (env : Env) (root : FsPath) (images? : Option (List Entry)) : RunOut :=
  match main env root images? with
  | .ok (out, fs?) => { exitCode := 0, stdout := out, stderr := [], fs := fs? }
  | .error (e, out) => { exitCode := 1, stdout := out, stderr := [e], fs := none }

/-! Section: Filesystem lemmas -/

theorem FS.find?_filter_ne (fs : FS) (p q : FsPath) (h : q ≠ p) :
    (fs.filter (fun e => e.1 != p)).find? (fun e => e.1 == q) =
      fs.find? (fun e => e.1 == q) := by
  induction fs with
  | nil => rfl
  | cons a t ih =>
    rw [List.filter_cons]
    by_cases hq : a.1 = q
    · have hp : (a.1 != p) = true := by rw [hq]; exact bne_iff_ne.mpr h
      rw [if_pos hp, List.find?_cons_of_pos _ (by simp [hq]),
        List.find?_cons_of_pos _ (by simp [hq])]
    · by_cases hp : (a.1 != p) = true
      · rw [if_pos hp, List.find?_cons_of_neg _ (by simp [hq]),
          List.find?_cons_of_neg _ (by simp [hq]), ih]
      · rw [if_neg hp, List.find?_cons_of_neg _ (by simp [hq]), ih]

theorem FS.read_filter_ne (fs : FS) (p q : FsPath) (h : q ≠ p) :
    FS.read (fs.filter (fun e => e.1 != p)) q = fs.read q := by
  simp only [FS.read, FS.find?_filter_ne fs p q h]

theorem FS.read_write_self (fs : FS) (p : FsPath) (b : Bytes) :
    (fs.write p b).read p = some b := by
  simp [FS.write, FS.read, List.find?_cons_of_pos]

theorem FS.read_write_ne (fs : FS) (p q : FsPath) (b : Bytes) (h : q ≠ p) :
    (fs.write p b).read q = fs.read q := by
  have hpq : ¬(((p, b) : FsPath × Bytes).1 == q) = true := by
    simp only [beq_iff_eq]; exact fun hc => h hc.symm
  unfold FS.write FS.read
  rw [@List.find?_cons_of_neg (FsPath × Bytes) (fun e => e.1 == q) (p, b)
    (fs.filter (fun e => e.1 != p)) hpq, FS.find?_filter_ne fs p q h]

theorem FS.find?_filter_self_none (l : FS) (p : FsPath) :
    (l.filter (fun e => e.1 != p)).find? (fun e => e.1 == p) = none := by
  rw [List.find?_eq_none]
  intro x hx
  have := (List.mem_filter.mp hx).2
  simpa [bne_iff_ne, beq_iff_eq] using this

theorem FS.read_rename_dst (fs : FS) (src dst : FsPath) (b : Bytes)
    (h : fs.read src = some b) :
    (fs.rename src dst).read dst = some b := by
  unfold FS.rename
  rw [h]
  have hfind : List.find? (fun e => e.1 == dst) ([((dst, b) : FsPath × Bytes)]) =
      some (dst, b) :=
    List.find?_cons_of_pos _ (by simp)
  simp only [FS.read, List.find?_append]
  have hnone :
      ((fs.filter (fun e => e.1 != src)).filter (fun e => e.1 != dst)).find?
        (fun e => e.1 == dst) = none :=
    FS.find?_filter_self_none _ dst
  rw [hnone, hfind]
  rfl

theorem FS.read_rename_other (fs : FS) (src dst q : FsPath)
    (h1 : q ≠ src) (h2 : q ≠ dst) :
    (fs.rename src dst).read q = fs.read q := by
  unfold FS.rename
  cases hr : fs.read src with
  | none => rfl
  | some b =>
    have hdq : ¬(((dst, b) : FsPath × Bytes).1 == q) = true := by
      simp only [beq_iff_eq]; exact fun hc => h2 hc.symm
    have hfind : List.find? (fun e => e.1 == q) [((dst, b) : FsPath × Bytes)] = none := by
      rw [@List.find?_cons_of_neg (FsPath × Bytes) (fun e => e.1 == q) (dst, b) [] hdq]
      rfl
    simp only [FS.read, List.find?_append,
      FS.find?_filter_ne _ dst q h2, FS.find?_filter_ne _ src q h1,
      hfind, Option.or_none]

/-- Every entry of the filesystem after a write or rename either has the
written key or was already present. -/
theorem FS.mem_write (fs : FS) (p : FsPath) (b : Bytes) (e : FsPath × Bytes)
    (h : e ∈ fs.write p b) : e.1 = p ∨ e ∈ fs := by
  rcases List.mem_cons.mp h with h | h
  · left; rw [h]
  · right; exact (List.mem_filter.mp h).1

theorem FS.mem_rename (fs : FS) (src dst : FsPath) (e : FsPath × Bytes)
    (h : e ∈ fs.rename src dst) : e.1 = dst ∨ e ∈ fs := by
  unfold FS.rename at h
  cases hr : fs.read src with
  | none => rw [hr] at h; right; exact h
  | some b =>
    rw [hr] at h
    rcases List.mem_append.mp h with h | h
    · right; exact (List.mem_filter.mp (List.mem_filter.mp h).1).1
    · left; simp only [List.mem_singleton] at h; rw [h]

theorem append_tmp_ne (p : FsPath) : p ++ ".tmp" ≠ p := by
  intro h
  have h2 := congrArg String.length h
  rw [String.length_append] at h2
  have h3 : (".tmp" : String).length = 4 := rfl
  omega

/-- Reading a key yields an entry of the list with that key. -/
theorem FS.read_some_mem (fs : FS) (p : FsPath) (b : Bytes)
    (h : fs.read p = some b) : (p, b) ∈ fs := by
  unfold FS.read at h
  cases hf : fs.find? (fun e => e.1 == p) with
  | none => rw [hf] at h; simp at h
  | some e =>
    rw [hf] at h
    have hm := List.mem_of_find?_eq_some hf
    have hp := List.find?_some hf
    simp only [beq_iff_eq] at hp
    obtain ⟨e1, e2⟩ := e
    simp only at hp
    simp only [Option.map_some'] at h
    have h2 : e2 = b := by simpa using h
    rw [← hp, ← h2]
    exact hm

/-- Entries after a rename either sit at the destination or were already
present with a key different from the source. -/
theorem FS.mem_rename_strong (fs : FS) (src dst : FsPath) (e : FsPath × Bytes)
    (h : e ∈ fs.rename src dst) : e.1 = dst ∨ (e ∈ fs ∧ e.1 ≠ src) := by
  unfold FS.rename at h
  cases hr : fs.read src with
  | none =>
    rw [hr] at h
    right
    refine ⟨h, fun hc => ?_⟩
    have hnone := FS.read_some_mem fs src
    unfold FS.read at hr
    cases hf : fs.find? (fun x => x.1 == src) with
    | some x => rw [hf] at hr; simp at hr
    | none =>
      have := List.find?_eq_none.mp hf e h
      simp only [beq_iff_eq] at this
      exact this hc
  | some b =>
    rw [hr] at h
    rcases List.mem_append.mp h with h | h
    · right
      have h1 := List.mem_filter.mp h
      have h2 := List.mem_filter.mp h1.1
      refine ⟨h2.1, ?_⟩
      have := h2.2
      simpa [bne_iff_ne] using this
    · left
      simp only [List.mem_singleton] at h
      rw [h]

/-! Section: Case analysis of `optimizeWebp` -/

/-- Unfolding `optimizeWebp` past the read, metadata and pipeline steps when
all three succeed. -/
theorem optimizeWebp_ok_eq (env : Env) (fs : FS) (p : FsPath)
    (buf outBuf : Bytes) (w? : Option Nat)
    (hwebp : isWebpName p = true)
    (hread : fs.read p = some buf)
    (hmeta : env.metadata buf = .ok w?)
    (hpipe : env.pipeline env.maxWidth env.quality buf = .ok outBuf) :
    optimizeWebp env fs p =
      (if !(decide ((w?.getD 0 : Int) > env.maxWidth)) &&
          !(decide (outBuf.length < buf.length)) then
        .ok ({ changed := false, reason := some "already_optimized" }, fs)
      else if env.writeOk (p ++ ".tmp") then
        if env.renameOk (p ++ ".tmp") p then
          .ok ({ changed := true, resized := some (decide ((w?.getD 0 : Int) > env.maxWidth)),
                 oldBytes := some buf.length, newBytes := some outBuf.length,
                 width := some (w?.getD 0) },
               (fs.write (p ++ ".tmp") outBuf).rename (p ++ ".tmp") p)
        else .error "rename_failed"
      else .error "write_failed") := by
  simp only [optimizeWebp, hwebp, hread, hmeta, hpipe, Bool.not_true, Bool.false_eq_true,
    if_false]

/-- The write branch: both heuristics evaluated, at least one fired, writes
allowed — `optimizeWebp` reports `changed` and the file now holds exactly
the pipeline output. -/
theorem optimizeWebp_writes (env : Env) (fs : FS) (p : FsPath)
    (buf outBuf : Bytes) (w? : Option Nat)
    (hwebp : isWebpName p = true)
    (hread : fs.read p = some buf)
    (hmeta : env.metadata buf = .ok w?)
    (hpipe : env.pipeline env.maxWidth env.quality buf = .ok outBuf)
    (hw : env.writeOk (p ++ ".tmp") = true)
    (hr : env.renameOk (p ++ ".tmp") p = true)
    (hcond : (w?.getD 0 : Int) > env.maxWidth ∨ outBuf.length < buf.length) :
    optimizeWebp env fs p =
      .ok ({ changed := true, resized := some (decide ((w?.getD 0 : Int) > env.maxWidth)),
             oldBytes := some buf.length, newBytes := some outBuf.length,
             width := some (w?.getD 0) },
           (fs.write (p ++ ".tmp") outBuf).rename (p ++ ".tmp") p) ∧
    ((fs.write (p ++ ".tmp") outBuf).rename (p ++ ".tmp") p).read p = some outBuf := by
  constructor
  · rw [optimizeWebp_ok_eq env fs p buf outBuf w? hwebp hread hmeta hpipe, hw, hr]
    have hb : (!(decide ((w?.getD 0 : Int) > env.maxWidth)) &&
        !(decide (outBuf.length < buf.length))) = false := by
      rcases hcond with hc | hc <;> simp [hc]
    rw [hb]
    simp
  · exact FS.read_rename_dst _ _ _ _ (FS.read_write_self fs (p ++ ".tmp") outBuf)

/-- The skip branch: neither heuristic fired — the result object says
`already_optimized` and the filesystem is returned unchanged. -/
theorem optimizeWebp_skips (env : Env) (fs : FS) (p : FsPath)
    (buf outBuf : Bytes) (w? : Option Nat)
    (hwebp : isWebpName p = true)
    (hread : fs.read p = some buf)
    (hmeta : env.metadata buf = .ok w?)
    (hpipe : env.pipeline env.maxWidth env.quality buf = .ok outBuf)
    (hc1 : ¬((w?.getD 0 : Int) > env.maxWidth))
    (hc2 : ¬(outBuf.length < buf.length)) :
    optimizeWebp env fs p =
      .ok ({ changed := false, reason := some "already_optimized" }, fs) := by
  rw [optimizeWebp_ok_eq env fs p buf outBuf w? hwebp hread hmeta hpipe]
  have hb : (!(decide ((w?.getD 0 : Int) > env.maxWidth)) &&
      !(decide (outBuf.length < buf.length))) = true := by
    simp [hc1, hc2]
  rw [hb]
  simp

/-- The guarded failure: `img.metadata()` throwing is caught and converted
into a normal `{ changed: false, reason: "metadata_failed" }` result with no
filesystem effect. -/
theorem optimizeWebp_metadata_caught (env : Env) (fs : FS) (p : FsPath)
    (buf : Bytes) (e : String)
    (hwebp : isWebpName p = true)
    (hread : fs.read p = some buf)
    (hmeta : env.metadata buf = .error e) :
    optimizeWebp env fs p =
      .ok ({ changed := false, reason := some "metadata_failed" }, fs) := by
  simp only [optimizeWebp, hwebp, hread, hmeta, Bool.not_true, Bool.false_eq_true, if_false]

/-- A file that fails the extension check is returned `{ changed: false }`
with no read and no filesystem effect. -/
theorem optimizeWebp_not_webp (env : Env) (fs : FS) (p : FsPath)
    (hwebp : isWebpName p = false) :
    optimizeWebp env fs p = .ok ({ changed := false }, fs) := by
  simp only [optimizeWebp, hwebp, Bool.not_false, if_true]

/-- A `fs.readFile` rejection (no such file) is not caught: the per-file
operation itself fails. -/
theorem optimizeWebp_read_error (env : Env) (fs : FS) (p : FsPath)
    (hwebp : isWebpName p = true) (hread : fs.read p = none) :
    optimizeWebp env fs p = .error "read_failed" := by
  simp only [optimizeWebp, hwebp, hread, Bool.not_true, Bool.false_eq_true, if_false]

/-- A pipeline/encode failure is not caught: the per-file operation fails
with the pipeline's own error. -/
theorem optimizeWebp_pipeline_error (env : Env) (fs : FS) (p : FsPath)
    (buf : Bytes) (w? : Option Nat) (e : String)
    (hwebp : isWebpName p = true)
    (hread : fs.read p = some buf)
    (hmeta : env.metadata buf = .ok w?)
    (hpipe : env.pipeline env.maxWidth env.quality buf = .error e) :
    optimizeWebp env fs p = .error e := by
  simp only [optimizeWebp, hwebp, hread, hmeta, hpipe, Bool.not_true, Bool.false_eq_true,
    if_false]

/-- A `writeFile` failure on the temporary path is not caught. -/
theorem optimizeWebp_write_error (env : Env) (fs : FS) (p : FsPath)
    (buf outBuf : Bytes) (w? : Option Nat)
    (hwebp : isWebpName p = true)
    (hread : fs.read p = some buf)
    (hmeta : env.metadata buf = .ok w?)
    (hpipe : env.pipeline env.maxWidth env.quality buf = .ok outBuf)
    (hcond : (w?.getD 0 : Int) > env.maxWidth ∨ outBuf.length < buf.length)
    (hw : env.writeOk (p ++ ".tmp") = false) :
    optimizeWebp env fs p = .error "write_failed" := by
  rw [optimizeWebp_ok_eq env fs p buf outBuf w? hwebp hread hmeta hpipe]
  have hb : (!(decide ((w?.getD 0 : Int) > env.maxWidth)) &&
      !(decide (outBuf.length < buf.length))) = false := by
    rcases hcond with hc | hc <;> simp [hc]
  rw [hb, hw]
  simp

/-- A `rename` failure is not caught. -/
theorem optimizeWebp_rename_error (env : Env) (fs : FS) (p : FsPath)
    (buf outBuf : Bytes) (w? : Option Nat)
    (hwebp : isWebpName p = true)
    (hread : fs.read p = some buf)
    (hmeta : env.metadata buf = .ok w?)
    (hpipe : env.pipeline env.maxWidth env.quality buf = .ok outBuf)
    (hcond : (w?.getD 0 : Int) > env.maxWidth ∨ outBuf.length < buf.length)
    (hw : env.writeOk (p ++ ".tmp") = true)
    (hr : env.renameOk (p ++ ".tmp") p = false) :
    optimizeWebp env fs p = .error "rename_failed" := by
  rw [optimizeWebp_ok_eq env fs p buf outBuf w? hwebp hread hmeta hpipe]
  have hb : (!(decide ((w?.getD 0 : Int) > env.maxWidth)) &&
      !(decide (outBuf.length < buf.length))) = false := by
    rcases hcond with hc | hc <;> simp [hc]
  rw [hb, hw, hr]
  simp

/-- Whatever `optimizeWebp` returns successfully, every entry of the
resulting filesystem was either already present or sits at the processed
path, which itself was already a key of the filesystem. -/
theorem optimizeWebp_keys (env : Env) (fs : FS) (p : FsPath)
    (r : OptResult) (fs' : FS) (e : FsPath × Bytes)
    (h : optimizeWebp env fs p = .ok (r, fs')) (he : e ∈ fs') :
    e ∈ fs ∨ (e.1 = p ∧ ∃ b, (p, b) ∈ fs) := by
  by_cases hwebp : isWebpName p = true
  · cases hread : fs.read p with
    | none =>
      rw [optimizeWebp_read_error env fs p hwebp hread] at h
      exact absurd h (by simp)
    | some buf =>
      have hmem : (p, buf) ∈ fs := FS.read_some_mem fs p buf hread
      cases hmeta : env.metadata buf with
      | error msg =>
        rw [optimizeWebp_metadata_caught env fs p buf msg hwebp hread hmeta] at h
        simp only [Except.ok.injEq, Prod.mk.injEq] at h
        rw [← h.2] at he
        exact Or.inl he
      | ok w? =>
        cases hpipe : env.pipeline env.maxWidth env.quality buf with
        | error msg =>
          rw [optimizeWebp_pipeline_error env fs p buf w? msg hwebp hread hmeta hpipe] at h
          exact absurd h (by simp)
        | ok outBuf =>
          by_cases hcond : (w?.getD 0 : Int) > env.maxWidth ∨ outBuf.length < buf.length
          · by_cases hw : env.writeOk (p ++ ".tmp") = true
            · by_cases hr : env.renameOk (p ++ ".tmp") p = true
              · rw [(optimizeWebp_writes env fs p buf outBuf w?
                  hwebp hread hmeta hpipe hw hr hcond).1] at h
                simp only [Except.ok.injEq, Prod.mk.injEq] at h
                rw [← h.2] at he
                rcases FS.mem_rename_strong _ _ _ _ he with hd | ⟨hm, hs⟩
                · exact Or.inr ⟨hd, ⟨buf, hmem⟩⟩
                · rcases FS.mem_write _ _ _ _ hm with hd | hm'
                  · exact absurd hd hs
                  · exact Or.inl hm'
              · rw [optimizeWebp_rename_error env fs p buf outBuf w?
                  hwebp hread hmeta hpipe hcond hw (eq_false_of_ne_true hr)] at h
                exact absurd h (by simp)
            · rw [optimizeWebp_write_error env fs p buf outBuf w?
                hwebp hread hmeta hpipe hcond (eq_false_of_ne_true hw)] at h
              exact absurd h (by simp)
          · push_neg at hcond
            rw [optimizeWebp_skips env fs p buf outBuf w? hwebp hread hmeta hpipe
              (not_lt.mpr hcond.1) (Nat.not_lt.mpr hcond.2)] at h
            simp only [Except.ok.injEq, Prod.mk.injEq] at h
            rw [← h.2] at he
            exact Or.inl he
  · rw [optimizeWebp_not_webp env fs p (eq_false_of_ne_true hwebp)] at h
    simp only [Except.ok.injEq, Prod.mk.injEq] at h
    rw [← h.2] at he
    exact Or.inl he

/-- Frame property: a successful `optimizeWebp` on `p` can only touch `p`
and its temporary sibling `p ++ ".tmp"`. -/
theorem optimizeWebp_frame (env : Env) (fs : FS) (p : FsPath)
    (r : OptResult) (fs' : FS) (q : FsPath)
    (h : optimizeWebp env fs p = .ok (r, fs'))
    (hq1 : q ≠ p) (hq2 : q ≠ p ++ ".tmp") :
    fs'.read q = fs.read q := by
  by_cases hwebp : isWebpName p = true
  · cases hread : fs.read p with
    | none =>
      rw [optimizeWebp_read_error env fs p hwebp hread] at h
      exact absurd h (by simp)
    | some buf =>
      cases hmeta : env.metadata buf with
      | error msg =>
        rw [optimizeWebp_metadata_caught env fs p buf msg hwebp hread hmeta] at h
        simp only [Except.ok.injEq, Prod.mk.injEq] at h
        rw [← h.2]
      | ok w? =>
        cases hpipe : env.pipeline env.maxWidth env.quality buf with
        | error msg =>
          rw [optimizeWebp_pipeline_error env fs p buf w? msg hwebp hread hmeta hpipe] at h
          exact absurd h (by simp)
        | ok outBuf =>
          by_cases hcond : (w?.getD 0 : Int) > env.maxWidth ∨ outBuf.length < buf.length
          · by_cases hw : env.writeOk (p ++ ".tmp") = true
            · by_cases hr : env.renameOk (p ++ ".tmp") p = true
              · rw [(optimizeWebp_writes env fs p buf outBuf w?
                  hwebp hread hmeta hpipe hw hr hcond).1] at h
                simp only [Except.ok.injEq, Prod.mk.injEq] at h
                rw [← h.2, FS.read_rename_other _ _ _ _ hq2 hq1,
                  FS.read_write_ne _ _ _ _ hq2]
              · rw [optimizeWebp_rename_error env fs p buf outBuf w?
                  hwebp hread hmeta hpipe hcond hw (eq_false_of_ne_true hr)] at h
                exact absurd h (by simp)
            · rw [optimizeWebp_write_error env fs p buf outBuf w?
                hwebp hread hmeta hpipe hcond (eq_false_of_ne_true hw)] at h
              exact absurd h (by simp)
          · push_neg at hcond
            rw [optimizeWebp_skips env fs p buf outBuf w? hwebp hread hmeta hpipe
              (not_lt.mpr hcond.1) (Nat.not_lt.mpr hcond.2)] at h
            simp only [Except.ok.injEq, Prod.mk.injEq] at h
            rw [← h.2]
  · rw [optimizeWebp_not_webp env fs p (eq_false_of_ne_true hwebp)] at h
    simp only [Except.ok.injEq, Prod.mk.injEq] at h
    rw [← h.2]

/-- Whenever `optimizeWebp` reports `changed`, the new filesystem is exactly
"write the pipeline output to `p ++ ".tmp"`, then rename it over `p`". -/
theorem optimizeWebp_changed_shape (env : Env) (fs : FS) (p : FsPath)
    (r : OptResult) (fs' : FS)
    (h : optimizeWebp env fs p = .ok (r, fs')) (hc : r.changed = true) :
    ∃ buf outBuf w?, fs.read p = some buf ∧ env.metadata buf = .ok w? ∧
      env.pipeline env.maxWidth env.quality buf = .ok outBuf ∧
      fs' = (fs.write (p ++ ".tmp") outBuf).rename (p ++ ".tmp") p := by
  by_cases hwebp : isWebpName p = true
  · cases hread : fs.read p with
    | none =>
      rw [optimizeWebp_read_error env fs p hwebp hread] at h
      exact absurd h (by simp)
    | some buf =>
      cases hmeta : env.metadata buf with
      | error msg =>
        rw [optimizeWebp_metadata_caught env fs p buf msg hwebp hread hmeta] at h
        simp only [Except.ok.injEq, Prod.mk.injEq] at h
        rw [← h.1] at hc
        exact absurd hc (by simp)
      | ok w? =>
        cases hpipe : env.pipeline env.maxWidth env.quality buf with
        | error msg =>
          rw [optimizeWebp_pipeline_error env fs p buf w? msg hwebp hread hmeta hpipe] at h
          exact absurd h (by simp)
        | ok outBuf =>
          by_cases hcond : (w?.getD 0 : Int) > env.maxWidth ∨ outBuf.length < buf.length
          · by_cases hw : env.writeOk (p ++ ".tmp") = true
            · by_cases hr : env.renameOk (p ++ ".tmp") p = true
              · rw [(optimizeWebp_writes env fs p buf outBuf w?
                  hwebp hread hmeta hpipe hw hr hcond).1] at h
                simp only [Except.ok.injEq, Prod.mk.injEq] at h
                exact ⟨buf, outBuf, w?, rfl, hmeta, hpipe, h.2.symm⟩
              · rw [optimizeWebp_rename_error env fs p buf outBuf w?
                  hwebp hread hmeta hpipe hcond hw (eq_false_of_ne_true hr)] at h
                exact absurd h (by simp)
            · rw [optimizeWebp_write_error env fs p buf outBuf w?
                hwebp hread hmeta hpipe hcond (eq_false_of_ne_true hw)] at h
              exact absurd h (by simp)
          · push_neg at hcond
            rw [optimizeWebp_skips env fs p buf outBuf w? hwebp hread hmeta hpipe
              (not_lt.mpr hcond.1) (Nat.not_lt.mpr hcond.2)] at h
            simp only [Except.ok.injEq, Prod.mk.injEq] at h
            rw [← h.1] at hc
            exact absurd hc (by simp)
  · rw [optimizeWebp_not_webp env fs p (eq_false_of_ne_true hwebp)] at h
    simp only [Except.ok.injEq, Prod.mk.injEq] at h
    rw [← h.1] at hc
    exact absurd hc (by simp)

/-! Section: Loop-level lemmas -/

/-- No path in the filesystem carries the `.tmp` suffix. -/
def noTmpFS (fs : FS) : Bool := fs.all (fun e => !(strEndsWith e.1 ".tmp"))

theorem optimizeWebp_noTmp (env : Env) (fs : FS) (p : FsPath)
    (r : OptResult) (fs' : FS)
    (h : optimizeWebp env fs p = .ok (r, fs'))
    (hn : noTmpFS fs = true) : noTmpFS fs' = true := by
  unfold noTmpFS at hn ⊢
  rw [List.all_eq_true] at hn ⊢
  intro e he
  rcases optimizeWebp_keys env fs p r fs' e h he with hin | ⟨hkey, b, hb⟩
  · exact hn e hin
  · have hp := hn (p, b) hb
    rw [hkey]
    simpa using hp

/-- One loop step on a file whose `optimizeWebp` raises: the whole loop
fails with that error, whatever files remain. -/
theorem loop_aborts (env : Env) (root : FsPath) (p : FsPath) (rest : List FsPath)
    (fs : FS) (c : Nat) (s : Int) (out : List String) (e : String)
    (h : optimizeWebp env fs p = .error e) :
    loop env root (p :: rest) fs c s out = .error (e, out) := by
  simp only [loop, h]

/-- One loop step on a file whose result is `changed: false`: nothing is
printed, no counter moves, the loop continues on the same filesystem. -/
theorem loop_skips (env : Env) (root : FsPath) (p : FsPath) (rest : List FsPath)
    (fs : FS) (c : Nat) (s : Int) (out : List String) (r : OptResult)
    (h : optimizeWebp env fs p = .ok (r, fs)) (hc : r.changed = false) :
    loop env root (p :: rest) fs c s out = loop env root rest fs c s out := by
  simp only [loop, h, hc, Bool.false_eq_true, if_false]

/-- The loop never introduces a `.tmp` path into a filesystem free of them. -/
theorem loop_noTmp (env : Env) (root : FsPath) (files : List FsPath) :
    ∀ fs c s out out' fsF, loop env root files fs c s out = .ok (out', fsF) →
    noTmpFS fs = true → noTmpFS fsF = true := by
  induction files with
  | nil =>
    intro fs c s out out' fsF h hn
    simp only [loop, Except.ok.injEq, Prod.mk.injEq] at h
    rw [← h.2]
    exact hn
  | cons f rest ih =>
    intro fs c s out out' fsF h hn
    cases hopt : optimizeWebp env fs f with
    | error e =>
      rw [loop_aborts env root f rest fs c s out e hopt] at h
      exact absurd h (by simp)
    | ok pr =>
      obtain ⟨r, fs'⟩ := pr
      have hn' := optimizeWebp_noTmp env fs f r fs' hopt hn
      simp only [loop, hopt] at h
      by_cases hc : r.changed = true
      · rw [if_pos hc] at h
        exact ih fs' (c + 1) _ _ out' fsF h hn'
      · rw [if_neg hc] at h
        exact ih fs' c s out out' fsF h hn'

/-- Frame property of the whole loop: a path that is neither one of the
processed files nor one of their temporary siblings keeps its bytes. -/
theorem loop_frame (env : Env) (root : FsPath) (files : List FsPath) :
    ∀ fs c s out out' fsF q, loop env root files fs c s out = .ok (out', fsF) →
    (∀ p ∈ files, q ≠ p ∧ q ≠ p ++ ".tmp") →
    fsF.read q = fs.read q := by
  induction files with
  | nil =>
    intro fs c s out out' fsF q h _
    simp only [loop, Except.ok.injEq, Prod.mk.injEq] at h
    rw [← h.2]
  | cons f rest ih =>
    intro fs c s out out' fsF q h hq
    cases hopt : optimizeWebp env fs f with
    | error e =>
      rw [loop_aborts env root f rest fs c s out e hopt] at h
      exact absurd h (by simp)
    | ok pr =>
      obtain ⟨r, fs'⟩ := pr
      have hfq := hq f (List.mem_cons_self f rest)
      have hstep : fs'.read q = fs.read q :=
        optimizeWebp_frame env fs f r fs' q hopt hfq.1 hfq.2
      have hrest : ∀ p ∈ rest, q ≠ p ∧ q ≠ p ++ ".tmp" :=
        fun p hp => hq p (List.mem_cons_of_mem f hp)
      simp only [loop, hopt] at h
      by_cases hc : r.changed = true
      · rw [if_pos hc] at h
        rw [ih fs' (c + 1) _ _ out' fsF q h hrest, hstep]
      · rw [if_neg hc] at h
        rw [ih fs' c s out out' fsF q h hrest, hstep]

/-- The per-file deltas `oldBytes - newBytes`, summed as the driver does. -/
def deltaSum (recs : List (FsPath × Nat × Nat)) : Int :=
  (recs.map (fun rec => (rec.2.1 : Int) - (rec.2.2 : Int))).sum

/-- Output characterization of a successful loop: some list of records, one
per changed file, accounts for every printed line, the final changed count
and the final saved-bytes total. -/
theorem loop_out_spec (env : Env) (root : FsPath) (files : List FsPath) :
    ∀ fs c s out out' fsF, loop env root files fs c s out = .ok (out', fsF) →
    ∃ recs : List (FsPath × Nat × Nat),
      out' = out ++ recs.map (fun rec => fileLine rec.1 rec.2.1 rec.2.2) ++
        [doneLine (c + recs.length) (s + deltaSum recs)] := by
  induction files with
  | nil =>
    intro fs c s out out' fsF h
    simp only [loop, Except.ok.injEq, Prod.mk.injEq] at h
    exact ⟨[], by simp [← h.1, deltaSum]⟩
  | cons f rest ih =>
    intro fs c s out out' fsF h
    cases hopt : optimizeWebp env fs f with
    | error e =>
      rw [loop_aborts env root f rest fs c s out e hopt] at h
      exact absurd h (by simp)
    | ok pr =>
      obtain ⟨r, fs'⟩ := pr
      simp only [loop, hopt] at h
      by_cases hc : r.changed = true
      · rw [if_pos hc] at h
        obtain ⟨recs, hrecs⟩ := ih fs' (c + 1)
          (s + (r.oldBytes.getD 0 : Int) - (r.newBytes.getD 0 : Int))
          (out ++ [fileLine (relativePath root f) (r.oldBytes.getD 0) (r.newBytes.getD 0)])
          out' fsF h
        refine ⟨(relativePath root f, r.oldBytes.getD 0, r.newBytes.getD 0) :: recs, ?_⟩
        rw [hrecs]
        have hcnt : (c + 1) + recs.length = c + (recs.length + 1) := by omega
        have hsum : (s + (r.oldBytes.getD 0 : Int) - (r.newBytes.getD 0 : Int)) +
            deltaSum recs =
            s + (((r.oldBytes.getD 0 : Int) - (r.newBytes.getD 0 : Int)) + deltaSum recs) := by
          ring
        simp only [List.map_cons, List.length_cons, deltaSum, List.sum_cons, hcnt, hsum,
          List.append_assoc, List.cons_append, List.nil_append]
        congr 1
        ring_nf
      · rw [if_neg hc] at h
        exact ih fs' c s out out' fsF h

/-! Section: Concrete fixtures for witnesses and counterexamples -/

/-- Oracle: every image is 3000 px wide; re-encoding yields `[9, 9, 9]`. -/
def envWide : Env :=
  { maxWidth := 1920, quality := 80,
    metadata := fun _ => .ok (some 3000),
    pipeline := fun _ _ _ => .ok [9, 9, 9],
    writeOk := fun _ => true,
    renameOk := fun _ _ => true }

/-- Oracle: images are 800 px wide; re-encoding keeps only the first two
bytes (always strictly smaller on our fixtures). -/
def envNarrow : Env :=
  { maxWidth := 1920, quality := 80,
    metadata := fun _ => .ok (some 800),
    pipeline := fun _ _ b => .ok (b.take 2),
    writeOk := fun _ => true,
    renameOk := fun _ _ => true }

/-- Oracle: metadata succeeds but reports no width. -/
def envNoWidth : Env :=
  { maxWidth := 1920, quality := 80,
    metadata := fun _ => .ok none,
    pipeline := fun _ _ b => .ok (b.take 2),
    writeOk := fun _ => true,
    renameOk := fun _ _ => true }

/-- Oracle: metadata extraction always throws. -/
def envMetaThrows : Env :=
  { maxWidth := 1920, quality := 80,
    metadata := fun _ => .error "meta_boom",
    pipeline := fun _ _ b => .ok (b.take 2),
    writeOk := fun _ => true,
    renameOk := fun _ _ => true }

/-- Oracle: the encode pipeline always throws. -/
def envPipeThrows : Env :=
  { maxWidth := 1920, quality := 80,
    metadata := fun _ => .ok (some 800),
    pipeline := fun _ _ _ => .error "pipe_boom",
    writeOk := fun _ => true,
    renameOk := fun _ _ => true }

/-- Oracle: images are 3000 px wide but the re-encoding grows the file. -/
def envGrow : Env :=
  { maxWidth := 1920, quality := 80,
    metadata := fun _ => .ok (some 3000),
    pipeline := fun _ _ b => .ok (b ++ [0, 0]),
    writeOk := fun _ => true,
    renameOk := fun _ _ => true }

/-- A directory with one webp, a leftover temporary file and a text file. -/
def entriesLeftover : List Entry :=
  [.file "a.webp" [1, 2, 3, 4], .file "a.webp.tmp" [7], .file "readme.txt" [5]]

/-- A successful `main` over an existing directory is exactly a successful
loop over the filtered walked files. -/
theorem main_ok_loop (env : Env) (root : FsPath) (entries : List Entry)
    (out : List String) (fsF : FS)
    (h : main env root (some entries) = .ok (out, some fsF)) :
    loop env root (webpsOf root entries) (walkFS root entries) 0 0 [] =
      .ok (out, fsF) := by
  cases hl : loop env root (webpsOf root entries) (walkFS root entries) 0 0 [] with
  | error e =>
    simp only [main, hl] at h
    exact absurd h (by simp)
  | ok pr =>
    obtain ⟨out', fs'⟩ := pr
    simp only [main, hl, Except.ok.injEq, Prod.mk.injEq, Option.some.injEq] at h
    rw [h.1, h.2]

/-! Section: Claims -/

/-- Claim C1: for every candidate `.webp` file whose metadata is read
successfully (and whose pipeline, write and rename do not fail),
`optimizeWebp` overwrites the file with the re-encoded output if and only if
the original width exceeds `MAX_WIDTH` or the output buffer is strictly
shorter than the original bytes; a width above `MAX_WIDTH` forces the
rewrite regardless of the resulting size, and when neither condition holds
the outcome is `already_optimized` and the filesystem — in particular the
file's bytes — is returned untouched. -/
theorem claim1_overwrite_iff (env : Env) (fs : FS) (p : FsPath)
    (buf outBuf : Bytes) (w? : Option Nat)
    (hwebp : isWebpName p = true)
    (hread : fs.read p = some buf)
    (hmeta : env.metadata buf = .ok w?)
    (hpipe : env.pipeline env.maxWidth env.quality buf = .ok outBuf)
    (hw : env.writeOk (p ++ ".tmp") = true)
    (hr : env.renameOk (p ++ ".tmp") p = true) :
    ((w?.getD 0 : Int) > env.maxWidth ∨ outBuf.length < buf.length →
      ∃ fs', optimizeWebp env fs p =
          .ok ({ changed := true,
                 resized := some (decide ((w?.getD 0 : Int) > env.maxWidth)),
                 oldBytes := some buf.length, newBytes := some outBuf.length,
                 width := some (w?.getD 0) }, fs') ∧
        fs'.read p = some outBuf) ∧
    (¬((w?.getD 0 : Int) > env.maxWidth) ∧ ¬(outBuf.length < buf.length) →
      optimizeWebp env fs p =
        .ok ({ changed := false, reason := some "already_optimized" }, fs)) := by
  constructor
  · intro hcond
    obtain ⟨h1, h2⟩ :=
      optimizeWebp_writes env fs p buf outBuf w? hwebp hread hmeta hpipe hw hr hcond
    exact ⟨_, h1, h2⟩
  · intro hcond
    exact optimizeWebp_skips env fs p buf outBuf w? hwebp hread hmeta hpipe hcond.1 hcond.2

/-- Witness for C1 at a concrete wide image: the rewrite happens and the
file holds the pipeline output. -/
theorem claim1_overwrite_iff_witness :
    ∃ fs', optimizeWebp envWide [("a.webp", [0, 0, 0, 0])] "a.webp" =
        .ok ({ changed := true, resized := some true, oldBytes := some 4,
               newBytes := some 3, width := some 3000 }, fs') ∧
      fs'.read "a.webp" = some [9, 9, 9] := by
  have h := (claim1_overwrite_iff envWide [("a.webp", [0, 0, 0, 0])] "a.webp"
    [0, 0, 0, 0] [9, 9, 9] (some 3000)
    (by decide) (by decide) rfl rfl rfl rfl).1 (by decide)
  simpa using h

/-- Claim C2: a candidate file on which metadata extraction throws is reported
`{ changed: false, reason: "metadata_failed" }` with no write and no escaped
error, and the loop continues with the remaining files on the unchanged
filesystem without touching the counters or the output. -/
theorem claim2_metadata_failed (env : Env) (fs : FS) (p : FsPath)
    (buf : Bytes) (e : String) (root : FsPath) (rest : List FsPath)
    (c : Nat) (s : Int) (out : List String)
    (hwebp : isWebpName p = true)
    (hread : fs.read p = some buf)
    (hmeta : env.metadata buf = .error e) :
    optimizeWebp env fs p =
      .ok ({ changed := false, reason := some "metadata_failed" }, fs) ∧
    loop env root (p :: rest) fs c s out = loop env root rest fs c s out := by
  have h1 := optimizeWebp_metadata_caught env fs p buf e hwebp hread hmeta
  exact ⟨h1, loop_skips env root p rest fs c s out _ h1 rfl⟩

/-- Witness for C2 at a concrete throwing metadata oracle. -/
theorem claim2_metadata_failed_witness :
    optimizeWebp envMetaThrows [("a.webp", [1])] "a.webp" =
      .ok ({ changed := false, reason := some "metadata_failed" }, [("a.webp", [1])]) ∧
    loop envMetaThrows "r" ["a.webp", "b.webp"] [("a.webp", [1])] 0 0 [] =
      loop envMetaThrows "r" ["b.webp"] [("a.webp", [1])] 0 0 [] :=
  claim2_metadata_failed envMetaThrows [("a.webp", [1])] "a.webp" [1] "meta_boom"
    "r" ["b.webp"] 0 0 [] (by decide) (by decide) rfl

/-- Claim C5: when the target directory is absent, the run prints exactly one
informational line, processes no file, leaves no filesystem behind and exits
with status 0. -/
theorem claim5_missing_dir (env : Env) (root : FsPath) :
    main env root none =
      .ok (["No images/ directory found at: " ++ targetDir root], none) ∧
    run env root none =
      { exitCode := 0,
        stdout := ["No images/ directory found at: " ++ targetDir root],
        stderr := [], fs := none } :=
  ⟨rfl, rfl⟩

/-- Claim C3: whenever `optimizeWebp` decides to rewrite a file, the new
filesystem is exactly "write the output buffer to `<path>.tmp`, then rename
that temporary over the original"; consequently a successful uninterrupted
run started on a filesystem free of `.tmp` paths ends on one free of `.tmp`
paths. -/
theorem claim3_atomic_replace :
    (∀ env fs p r fs', optimizeWebp env fs p = .ok (r, fs') → r.changed = true →
      ∃ buf outBuf w?, fs.read p = some buf ∧ env.metadata buf = .ok w? ∧
        env.pipeline env.maxWidth env.quality buf = .ok outBuf ∧
        fs' = (fs.write (p ++ ".tmp") outBuf).rename (p ++ ".tmp") p) ∧
    (∀ env root entries out fsF,
      main env root (some entries) = .ok (out, some fsF) →
      noTmpFS (walkFS root entries) = true → noTmpFS fsF = true) := by
  constructor
  · exact fun env fs p r fs' h hc => optimizeWebp_changed_shape env fs p r fs' h hc
  · intro env root entries out fsF h hn
    exact loop_noTmp env root (webpsOf root entries) (walkFS root entries) 0 0 []
      out fsF (main_ok_loop env root entries out fsF h) hn

/-- Witness for C3: the concrete rewrite of `a.webp` is a write-to-tmp
followed by a rename, and a concrete successful run leaves no `.tmp` file. -/
theorem claim3_atomic_replace_witness :
    (∃ buf outBuf w?,
      FS.read [("a.webp", [0, 0, 0, 0])] "a.webp" = some buf ∧
      envWide.metadata buf = .ok w? ∧
      envWide.pipeline envWide.maxWidth envWide.quality buf = .ok outBuf ∧
      ([("a.webp", [9, 9, 9])] : FS) =
        (FS.write [("a.webp", [0, 0, 0, 0])] ("a.webp" ++ ".tmp") outBuf).rename
          ("a.webp" ++ ".tmp") "a.webp") ∧
    noTmpFS [("r/images/a.webp", [9, 9, 9])] = true := by
  constructor
  · exact claim3_atomic_replace.1 envWide [("a.webp", [0, 0, 0, 0])] "a.webp"
      { changed := true, resized := some true, oldBytes := some 4,
        newBytes := some 3, width := some 3000 }
      [("a.webp", [9, 9, 9])] rfl rfl
  · exact claim3_atomic_replace.2 envWide "r" [.file "a.webp" [0, 0, 0, 0]]
      ["✅ optimized: images/a.webp (4 -> 3 bytes)", "Done. changed=1, saved=1 bytes"]
      [("r/images/a.webp", [9, 9, 9])] rfl (by decide)

/-- Counterexample to claim C4: the claim "no walked file failing the extension
filter is ever written" fails: a leftover file named `a.webp.tmp` is walked,
fails the filter, yet after the run its entry is gone — it was clobbered as
the temporary for `a.webp` and renamed away. -/
theorem claim4_cex :
    isWebpName "r/images/a.webp.tmp" = false ∧
    FS.read (walkFS "r" entriesLeftover) "r/images/a.webp.tmp" = some [7] ∧
    main envWide "r" (some entriesLeftover) =
      .ok (["✅ optimized: images/a.webp (4 -> 3 bytes)",
            "Done. changed=1, saved=1 bytes"],
           some [("r/images/readme.txt", [5]), ("r/images/a.webp", [9, 9, 9])]) ∧
    FS.read [("r/images/readme.txt", [5]), ("r/images/a.webp", [9, 9, 9])]
      "r/images/a.webp.tmp" = none :=
  ⟨by decide, by decide, rfl, by decide⟩

/-- Claim C4 as amended: a walked file failing the case-insensitive `.webp`
filter is never handed to the per-file optimizer, and — provided its path is
not the `.tmp` sibling of one of the selected candidates — its on-disk bytes
after a successful run are exactly its initial bytes. -/
theorem claim4_amended (env : Env) (root : FsPath) (entries : List Entry)
    (out : List String) (fsF : FS)
    (hmain : main env root (some entries) = .ok (out, some fsF))
    (q : FsPath) (hq : isWebpName q = false)
    (hq2 : ∀ w ∈ webpsOf root entries, q ≠ w ++ ".tmp") :
    q ∉ webpsOf root entries ∧ fsF.read q = (walkFS root entries).read q := by
  have hnot : q ∉ webpsOf root entries := by
    intro hmem
    have hfil := (List.mem_filter.mp hmem).2
    rw [hq] at hfil
    exact absurd hfil (by simp)
  refine ⟨hnot, ?_⟩
  apply loop_frame env root (webpsOf root entries) (walkFS root entries) 0 0 [] out fsF q
    (main_ok_loop env root entries out fsF hmain)
  intro p hp
  constructor
  · intro hqp
    rw [hqp] at hq
    have hfil := (List.mem_filter.mp hp).2
    rw [hq] at hfil
    exact absurd hfil (by simp)
  · exact hq2 p hp

/-- Witness for the amended C4 at the concrete leftover-file run: the text
file is not selected and keeps its bytes. -/
theorem claim4_amended_witness :
    "r/images/readme.txt" ∉ webpsOf "r" entriesLeftover ∧
    FS.read [("r/images/readme.txt", [5]), ("r/images/a.webp", [9, 9, 9])]
        "r/images/readme.txt" =
      FS.read (walkFS "r" entriesLeftover) "r/images/readme.txt" :=
  claim4_amended envWide "r" entriesLeftover
    ["✅ optimized: images/a.webp (4 -> 3 bytes)", "Done. changed=1, saved=1 bytes"]
    [("r/images/readme.txt", [5]), ("r/images/a.webp", [9, 9, 9])]
    rfl "r/images/readme.txt" (by decide) (by decide)

/-- Claim C6: every failure other than metadata extraction — read, pipeline,
write or rename — escapes the per-file operation; a failing first file makes
the loop fail immediately whatever files remain, and the top-level handler
turns a failed `main` into exit status 1 with the error on stderr. -/
theorem claim6_fatal_errors :
    (∀ env fs p, isWebpName p = true → fs.read p = none →
      optimizeWebp env fs p = .error "read_failed") ∧
    (∀ env fs p buf w? e, isWebpName p = true → FS.read fs p = some buf →
      Env.metadata env buf = .ok w? →
      Env.pipeline env env.maxWidth env.quality buf = .error e →
      optimizeWebp env fs p = .error e) ∧
    (∀ env fs p buf outBuf w?, isWebpName p = true → FS.read fs p = some buf →
      Env.metadata env buf = .ok w? →
      Env.pipeline env env.maxWidth env.quality buf = .ok outBuf →
      ((w?.getD 0 : Int) > env.maxWidth ∨ outBuf.length < buf.length) →
      Env.writeOk env (p ++ ".tmp") = false →
      optimizeWebp env fs p = .error "write_failed") ∧
    (∀ env fs p buf outBuf w?, isWebpName p = true → FS.read fs p = some buf →
      Env.metadata env buf = .ok w? →
      Env.pipeline env env.maxWidth env.quality buf = .ok outBuf →
      ((w?.getD 0 : Int) > env.maxWidth ∨ outBuf.length < buf.length) →
      Env.writeOk env (p ++ ".tmp") = true → Env.renameOk env (p ++ ".tmp") p = false →
      optimizeWebp env fs p = .error "rename_failed") ∧
    (∀ env root p rest fs c s out e, optimizeWebp env fs p = .error e →
      loop env root (p :: rest) fs c s out = .error (e, out)) ∧
    (∀ env root images e out, main env root images = .error (e, out) →
      run env root images =
        { exitCode := 1, stdout := out, stderr := [e], fs := none }) := by
  refine ⟨?_, ?_, ?_, ?_, ?_, ?_⟩
  · exact fun env fs p h1 h2 => optimizeWebp_read_error env fs p h1 h2
  · exact fun env fs p buf w? e h1 h2 h3 h4 =>
      optimizeWebp_pipeline_error env fs p buf w? e h1 h2 h3 h4
  · exact fun env fs p buf outBuf w? h1 h2 h3 h4 h5 h6 =>
      optimizeWebp_write_error env fs p buf outBuf w? h1 h2 h3 h4 h5 h6
  · exact fun env fs p buf outBuf w? h1 h2 h3 h4 h5 h6 h7 =>
      optimizeWebp_rename_error env fs p buf outBuf w? h1 h2 h3 h4 h5 h6 h7
  · exact fun env root p rest fs c s out e h =>
      loop_aborts env root p rest fs c s out e h
  · intro env root images e out h
    simp only [run, h]

/-- Witness for C6: a concrete run whose first candidate's pipeline throws
aborts before the second candidate and exits 1. -/
theorem claim6_fatal_errors_witness :
    optimizeWebp envPipeThrows [("r/images/a.webp", [1]), ("r/images/b.webp", [2])]
      "r/images/a.webp" = .error "pipe_boom" ∧
    loop envPipeThrows "r" ["r/images/a.webp", "r/images/b.webp"]
      [("r/images/a.webp", [1]), ("r/images/b.webp", [2])] 0 0 [] =
      .error ("pipe_boom", []) ∧
    run envPipeThrows "r" (some [.file "a.webp" [1], .file "b.webp" [2]]) =
      { exitCode := 1, stdout := [], stderr := ["pipe_boom"], fs := none } := by
  have h1 := claim6_fatal_errors.2.1 envPipeThrows
    [("r/images/a.webp", [1]), ("r/images/b.webp", [2])] "r/images/a.webp"
    [1] (some 800) "pipe_boom" (by decide) (by decide) rfl rfl
  have h2 := claim6_fatal_errors.2.2.2.2.1 envPipeThrows "r" "r/images/a.webp"
    ["r/images/b.webp"] [("r/images/a.webp", [1]), ("r/images/b.webp", [2])]
    0 0 [] "pipe_boom" h1
  exact ⟨h1, h2, claim6_fatal_errors.2.2.2.2.2 envPipeThrows "r"
    (some [.file "a.webp" [1], .file "b.webp" [2]]) "pipe_boom" [] rfl⟩

/-- Counterexample to claim C7: the per-file stdout line is
`✅ optimized: <rel> (<old> -> <new> bytes)` — it differs from the claimed
form `optimized: <rel> (<old>-><new> bytes)` and does not even start with
`optimized:`. -/
theorem claim7_cex :
    run envWide "r" (some [.file "a.webp" [0, 0, 0, 0]]) =
      { exitCode := 0,
        stdout := ["✅ optimized: images/a.webp (4 -> 3 bytes)",
                   "Done. changed=1, saved=1 bytes"],
        stderr := [], fs := some [("r/images/a.webp", [9, 9, 9])] } ∧
    "✅ optimized: images/a.webp (4 -> 3 bytes)" ≠
      "optimized: images/a.webp (4->3 bytes)" ∧
    ("optimized:".data.isPrefixOf
      "✅ optimized: images/a.webp (4 -> 3 bytes)".data) = false :=
  ⟨rfl, by decide, by decide⟩

/-- Claim C7 as amended: a successful run prints exactly one line
`✅ optimized: <rel> (<old> -> <new> bytes)` per changed file, in order, and
exactly one final line `Done. changed=<n>, saved=<s> bytes`, where `<n>` is
the number of changed files and `<s>` the accumulated saved bytes. -/
theorem claim7_amended (env : Env) (root : FsPath) (entries : List Entry)
    (out : List String) (fsF : FS)
    (hmain : main env root (some entries) = .ok (out, some fsF)) :
    ∃ recs : List (FsPath × Nat × Nat),
      out = recs.map (fun rec => fileLine rec.1 rec.2.1 rec.2.2) ++
        [doneLine recs.length (deltaSum recs)] := by
  obtain ⟨recs, hrecs⟩ := loop_out_spec env root (webpsOf root entries)
    (walkFS root entries) 0 0 [] out fsF (main_ok_loop env root entries out fsF hmain)
  refine ⟨recs, ?_⟩
  simpa using hrecs

/-- Witness for the amended C7 at a concrete one-file run. -/
theorem claim7_amended_witness :
    ∃ recs : List (FsPath × Nat × Nat),
      ["✅ optimized: images/a.webp (4 -> 3 bytes)", "Done. changed=1, saved=1 bytes"] =
        recs.map (fun rec => fileLine rec.1 rec.2.1 rec.2.2) ++
          [doneLine recs.length (deltaSum recs)] :=
  claim7_amended envWide "r" [.file "a.webp" [0, 0, 0, 0]]
    ["✅ optimized: images/a.webp (4 -> 3 bytes)", "Done. changed=1, saved=1 bytes"]
    [("r/images/a.webp", [9, 9, 9])] rfl

/-- Counterexample to claim C8: the script performs no range validation: with
`WEBP_QUALITY=200` the effective quality is 200, outside 0–100. -/
theorem claim8_cex :
    qualityOf (some "200") = some 200 ∧ ¬((200 : Int) ≤ 100) := by decide

/-- Claim C8 as amended: with both variables unset the configuration defaults
to maximum width 1920 and quality 80 (which lies in 0–100); a set, non-empty
`WEBP_QUALITY` is passed through `parseInt` with no range check at all. -/
theorem claim8_amended :
    maxWidthOf none = some 1920 ∧ qualityOf none = some 80 ∧
    ((0 : Int) ≤ 80 ∧ (80 : Int) ≤ 100) ∧
    (∀ v : String, v ≠ "" → qualityOf (some v) = parseIntJS v) := by
  refine ⟨by decide, by decide, by decide, ?_⟩
  intro v hv
  simp [qualityOf, envOr, hv]

/-- Witness for the amended C8: the pass-through at `"200"`. -/
theorem claim8_amended_witness :
    qualityOf (some "200") = parseIntJS "200" :=
  claim8_amended.2.2.2 "200" (by decide)

/-- Claim C9: when metadata succeeds but carries no width, the width is taken
as 0, so (for the documented non-negative maximum width) the file is never
considered resized and is overwritten exactly when the re-encoded output is
strictly smaller than the original bytes. -/
theorem claim9_missing_width (env : Env) (fs : FS) (p : FsPath)
    (buf outBuf : Bytes)
    (hwebp : isWebpName p = true)
    (hread : fs.read p = some buf)
    (hmeta : env.metadata buf = .ok none)
    (hpipe : env.pipeline env.maxWidth env.quality buf = .ok outBuf)
    (hmw : 0 ≤ env.maxWidth)
    (hw : env.writeOk (p ++ ".tmp") = true)
    (hr : env.renameOk (p ++ ".tmp") p = true) :
    (outBuf.length < buf.length →
      ∃ fs', optimizeWebp env fs p =
          .ok ({ changed := true, resized := some false,
                 oldBytes := some buf.length, newBytes := some outBuf.length,
                 width := some 0 }, fs') ∧
        fs'.read p = some outBuf) ∧
    (¬(outBuf.length < buf.length) →
      optimizeWebp env fs p =
        .ok ({ changed := false, reason := some "already_optimized" }, fs)) := by
  have hres : ¬((((none : Option Nat).getD 0 : Nat) : Int) > env.maxWidth) := by
    simp only [Option.getD_none, Nat.cast_zero, gt_iff_lt]
    exact not_lt.mpr hmw
  constructor
  · intro hsm
    obtain ⟨h1, h2⟩ := optimizeWebp_writes env fs p buf outBuf none
      hwebp hread hmeta hpipe hw hr (Or.inr hsm)
    refine ⟨_, ?_, h2⟩
    rw [h1]
    have hres0 : (decide (((0 : Nat) : Int) > env.maxWidth)) = false :=
      decide_eq_false (by simpa using hres)
    simp only [Option.getD_none, hres0]
  · intro hns
    exact optimizeWebp_skips env fs p buf outBuf none hwebp hread hmeta hpipe hres hns

/-- Witness for C9 at a concrete width-less image that compresses well. -/
theorem claim9_missing_width_witness :
    ∃ fs', optimizeWebp envNoWidth [("a.webp", [1, 2, 3, 4])] "a.webp" =
        .ok ({ changed := true, resized := some false, oldBytes := some 4,
               newBytes := some 2, width := some 0 }, fs') ∧
      fs'.read "a.webp" = some [1, 2] := by
  have h := (claim9_missing_width envNoWidth [("a.webp", [1, 2, 3, 4])] "a.webp"
    [1, 2, 3, 4] [1, 2] (by decide) (by decide) rfl rfl (by decide) rfl rfl).1
    (by decide)
  simpa using h

/-- Claim C10: the reported saved-bytes total is exactly the sum of
`oldBytes - newBytes` over the changed files, and it can be negative: a
resized file whose re-encoding grew contributes a negative delta, as the
concrete run below shows (`saved=-2`). -/
theorem claim10_saved_sum :
    (∀ env root entries out fsF,
      main env root (some entries) = .ok (out, some fsF) →
      ∃ recs : List (FsPath × Nat × Nat),
        out = recs.map (fun rec => fileLine rec.1 rec.2.1 rec.2.2) ++
          [doneLine recs.length (deltaSum recs)] ∧
        deltaSum recs =
          (recs.map (fun rec => (rec.2.1 : Int) - (rec.2.2 : Int))).sum) ∧
    (run envGrow "r" (some [.file "a.webp" [1, 2, 3, 4]]) =
      { exitCode := 0,
        stdout := ["✅ optimized: images/a.webp (4 -> 6 bytes)",
                   "Done. changed=1, saved=-2 bytes"],
        stderr := [], fs := some [("r/images/a.webp", [1, 2, 3, 4, 0, 0])] } ∧
     deltaSum [("images/a.webp", 4, 6)] = -2 ∧ (-2 : Int) < 0) := by
  constructor
  · intro env root entries out fsF hmain
    obtain ⟨recs, hrecs⟩ := loop_out_spec env root (webpsOf root entries)
      (walkFS root entries) 0 0 [] out fsF (main_ok_loop env root entries out fsF hmain)
    exact ⟨recs, by simpa using hrecs, rfl⟩
  · exact ⟨rfl, by decide, by decide⟩

/-- Witness for C10 at the concrete growing run. -/
theorem claim10_saved_sum_witness :
    ∃ recs : List (FsPath × Nat × Nat),
      ["✅ optimized: images/a.webp (4 -> 6 bytes)", "Done. changed=1, saved=-2 bytes"] =
        recs.map (fun rec => fileLine rec.1 rec.2.1 rec.2.2) ++
          [doneLine recs.length (deltaSum recs)] ∧
      deltaSum recs =
        (recs.map (fun rec => (rec.2.1 : Int) - (rec.2.2 : Int))).sum :=
  claim10_saved_sum.1 envGrow "r" [.file "a.webp" [1, 2, 3, 4]]
    ["✅ optimized: images/a.webp (4 -> 6 bytes)", "Done. changed=1, saved=-2 bytes"]
    [("r/images/a.webp", [1, 2, 3, 4, 0, 0])] rfl

end OptimizeWebp
